import Mathlib

/-!
Verification development for the json-validator repository.

The engine under study lives in `src/src/App.tsx` (functions
`validateJsonSyntax`, `validateJsonSchema`, `checkDuplicateKeys`,
`checkJsonAnomalies`, `validateJson`) and in the presentation wrapper
`src/src/components/JsonValidator.tsx` (`validateJsonInput`).  Every
definition below is a shallow embedding of one of those functions or of
an external collaborator they call (the JavaScript runtime's
`JSON.parse`/`JSON.stringify`, the Ajv schema library).  Mutation of the
shared `result` object in the source is rendered as functional threading:
each `result.valid = false; result.errors.push(e)` pair becomes `addErr`.
JavaScript numbers are modelled by `JsonNumber`, which records the only
two aspects the engine ever observes: finiteness and the textual form.
All recursion is either structural or fuelled with a fuel that provably
dominates the number of steps the JavaScript code performs, so every
definition is executable by kernel reduction.
-/

/-- Model of the engine's `ValidationError` record (`App.tsx` lines 65-71):
a tagged finding with optional path and optional 1-based text position.
The source uses a plain string for the tag, so `type` is a `String`. -/
structure ValidationError where
  type : String
  message : String
  path : Option String := none
  line : Option Nat := none
  column : Option Nat := none
deriving Repr, DecidableEq

/-- Model of the engine's `ValidationResult` record (`App.tsx` lines 60-63). -/
structure ValidationResult where
  valid : Bool
  errors : List ValidationError
deriving Repr, DecidableEq

/-- Rendering of the source's paired mutation `result.valid = false;
result.errors.push(e)`: append the finding and force `valid` to false. -/
def addErr (r : ValidationResult) (e : ValidationError) : ValidationResult :=
  ⟨false, r.errors ++ [e]⟩

/-- The report invariant stated in the spec: `valid` is true iff `errors`
is empty. -/
def reportInv (r : ValidationResult) : Prop :=
  r.valid = r.errors.isEmpty

instance (r : ValidationResult) : Decidable (reportInv r) := by
  unfold reportInv; infer_instance

/-- Model of a JavaScript number as the engine observes it: the engine only
ever asks `Number.isFinite` and interpolates the value into a message
(`checkForInvalidNumbers`), so we record finiteness and the textual form. -/
structure JsonNumber where
  isFinite : Bool
  repr : String
deriving Repr, DecidableEq

/-- The standard JSON value model (the result of `JSON.parse`). Objects are
ordered key/value lists; `JSON.parse` itself never produces a repeated key
(last write wins, see `objInsert`). -/
inductive JsonValue where
  | null : JsonValue
  | bool (b : Bool) : JsonValue
  | num (n : JsonNumber) : JsonValue
  | str (s : String) : JsonValue
  | arr (items : List JsonValue) : JsonValue
  | obj (entries : List (String × JsonValue)) : JsonValue
deriving Repr

/-- Position-to-(line, column) conversion used by `validateJsonSyntax`
(`App.tsx` lines 95-107) and by the permissive duplicate-key parser
(lines 360-371): scan the first `pos` indices, `\n` increments the line and
resets the column, anything else (including an out-of-range read, which in
JavaScript yields `undefined`) increments the column. 1-based. -/
def lineColList (cs : List Char) (pos : Nat) : Nat × Nat :=
  (List.range pos).foldl
    (fun lc i => if cs.get? i = some '\n' then (lc.1 + 1, 1) else (lc.1, lc.2 + 1))
    (1, 1)

/-- String-level wrapper for `lineColList`. -/
def lineColOf (s : String) (pos : Nat) : Nat × Nat :=
  lineColList s.toList pos

/-! ## Model of the JavaScript runtime's `JSON.parse`

The engine delegates well-formedness to the host runtime.  We model the
thrown `SyntaxError` as a `JsError` value.  Its `position` field models the
result of the source's `error.message.match(/at position (\d+)/)` probe:
messages produced by this model contain `at position n` exactly when
`position = some n`, and the runtime's `Unexpected end of JSON input`
message carries no position. -/

/-- Model of a `SyntaxError` thrown by `JSON.parse`. -/
structure JsError where
  message : String
  position : Option Nat
deriving Repr, DecidableEq

/-- Error for an unexpected character, carrying its offset (V8-style). -/
def unexpTok (c : Char) (p : Nat) : JsError :=
  ⟨"Unexpected token " ++ String.singleton c ++ " in JSON at position " ++ toString p, some p⟩

/-- Error for running off the end of the input; V8 reports no offset. -/
def unexpEnd : JsError :=
  ⟨"Unexpected end of JSON input", none⟩

/-- JSON insignificant whitespace. -/
def jsonWs (c : Char) : Bool :=
  c = ' ' || c = '\t' || c = '\n' || c = '\r'

/-- Skip insignificant whitespace, tracking the offset. -/
def skipWs : List Char → Nat → List Char × Nat
  | [], p => ([], p)
  | c :: rest, p => if jsonWs c then skipWs rest (p + 1) else (c :: rest, p)

/-- Hexadecimal digit value, for `\uXXXX` escapes. -/
def hexVal (c : Char) : Option Nat :=
  if '0' ≤ c ∧ c ≤ '9' then some (c.toNat - '0'.toNat)
  else if 'a' ≤ c ∧ c ≤ 'f' then some (c.toNat - 'a'.toNat + 10)
  else if 'A' ≤ c ∧ c ≤ 'F' then some (c.toNat - 'A'.toNat + 10)
  else none

/-- Parse the body of a JSON string literal (after the opening quote),
decoding escapes; returns the decoded string, the rest of the input and the
offset just past the closing quote. -/
def parseStringBody : List Char → Nat → String → Except JsError (String × List Char × Nat)
  | [], _, _ => .error unexpEnd
  | c :: rest, p, acc =>
    if c = '"' then .ok (acc, rest, p + 1)
    else if c = '\\' then
      match rest with
      | [] => .error unexpEnd
      | e :: rest2 =>
        if e = '"' then parseStringBody rest2 (p + 2) (acc.push '"')
        else if e = '\\' then parseStringBody rest2 (p + 2) (acc.push '\\')
        else if e = '/' then parseStringBody rest2 (p + 2) (acc.push '/')
        else if e = 'b' then parseStringBody rest2 (p + 2) (acc.push '\x08')
        else if e = 'f' then parseStringBody rest2 (p + 2) (acc.push '\x0c')
        else if e = 'n' then parseStringBody rest2 (p + 2) (acc.push '\n')
        else if e = 'r' then parseStringBody rest2 (p + 2) (acc.push '\r')
        else if e = 't' then parseStringBody rest2 (p + 2) (acc.push '\t')
        else if e = 'u' then
          match rest2 with
          | a :: b :: c2 :: d :: rest3 =>
            match hexVal a, hexVal b, hexVal c2, hexVal d with
            | some ha, some hb, some hc, some hd =>
              parseStringBody rest3 (p + 6)
                (acc.push (Char.ofNat (((ha * 16 + hb) * 16 + hc) * 16 + hd)))
            | _, _, _, _ => .error (unexpTok e (p + 1))
          | _ => .error unexpEnd
        else .error (unexpTok e (p + 1))
    else parseStringBody rest (p + 1) (acc.push c)

/-- Parse a JSON number starting at the current character; the engine only
observes finiteness and the lexeme, so the lexeme is kept verbatim. -/
def parseNumber (cs : List Char) (p : Nat) : Except JsError (JsonNumber × List Char × Nat) :=
  let (negChars, cs1, p1) : List Char × List Char × Nat :=
    match cs with
    | '-' :: r => (['-'], r, p + 1)
    | _ => ([], cs, p)
  match cs1 with
  | [] => .error unexpEnd
  | c :: _ =>
    if c.isDigit = false then .error (unexpTok c p1)
    else
      let intPart := cs1.takeWhile Char.isDigit
      let cs2 := cs1.dropWhile Char.isDigit
      if intPart.headD '0' = '0' ∧ intPart.length > 1 then .error (unexpTok c p1)
      else
        let p2 := p1 + intPart.length
        let (fracPart, cs3, p3) : List Char × List Char × Nat :=
          match cs2 with
          | '.' :: r =>
            let ds := r.takeWhile Char.isDigit
            ('.' :: ds, r.dropWhile Char.isDigit, p2 + 1 + ds.length)
          | _ => ([], cs2, p2)
        if fracPart = ['.'] then
          match cs3 with
          | [] => .error unexpEnd
          | c3 :: _ => .error (unexpTok c3 p3)
        else
          let (expPart, cs4, p4) : List Char × List Char × Nat :=
            match cs3 with
            | 'e' :: '+' :: r =>
              let ds := r.takeWhile Char.isDigit
              (['e', '+'] ++ ds, r.dropWhile Char.isDigit, p3 + 2 + ds.length)
            | 'e' :: '-' :: r =>
              let ds := r.takeWhile Char.isDigit
              (['e', '-'] ++ ds, r.dropWhile Char.isDigit, p3 + 2 + ds.length)
            | 'e' :: r =>
              let ds := r.takeWhile Char.isDigit
              ('e' :: ds, r.dropWhile Char.isDigit, p3 + 1 + ds.length)
            | 'E' :: '+' :: r =>
              let ds := r.takeWhile Char.isDigit
              (['E', '+'] ++ ds, r.dropWhile Char.isDigit, p3 + 2 + ds.length)
            | 'E' :: '-' :: r =>
              let ds := r.takeWhile Char.isDigit
              (['E', '-'] ++ ds, r.dropWhile Char.isDigit, p3 + 2 + ds.length)
            | 'E' :: r =>
              let ds := r.takeWhile Char.isDigit
              ('E' :: ds, r.dropWhile Char.isDigit, p3 + 1 + ds.length)
            | _ => ([], cs3, p3)
          .ok (⟨true, String.mk (negChars ++ intPart ++ fracPart ++ expPart)⟩, cs4, p4)

/-- Consume a literal keyword (`true`, `false`, `null`). -/
def parseLit (cs : List Char) (p : Nat) (lit : String) (v : JsonValue) :
    Except JsError (JsonValue × List Char × Nat) :=
  if cs.take lit.length = lit.toList then .ok (v, cs.drop lit.length, p + lit.length)
  else if cs.length < lit.length then .error unexpEnd
  else
    match cs with
    | [] => .error unexpEnd
    | c :: _ => .error (unexpTok c p)

/-- Object insertion with JavaScript semantics: a repeated key keeps its
original position but takes the new value (last write wins). -/
def objInsert (entries : List (String × JsonValue)) (k : String) (v : JsonValue) :
    List (String × JsonValue) :=
  if entries.any (fun q => q.1 = k) then
    entries.map (fun q => if q.1 = k then (k, v) else q)
  else entries ++ [(k, v)]

mutual

/-- Model of `JSON.parse` value parsing. The fuel dominates the character
count, and every recursive call first consumes at least one character, so
the fuel-exhaustion branch is unreachable from `jsonParse`. -/
def parseValue : Nat → List Char → Nat → Except JsError (JsonValue × List Char × Nat)
  | 0, _, _ => .error ⟨"model: parse fuel exhausted", none⟩
  | fuel + 1, cs, p =>
    match cs with
    | [] => .error unexpEnd
    | c :: rest =>
      if c = '\x7b' then parseObjStart fuel rest (p + 1)
      else if c = '[' then parseArrStart fuel rest (p + 1)
      else if c = '"' then
        match parseStringBody rest (p + 1) "" with
        | .ok (s, cs2, p2) => .ok (.str s, cs2, p2)
        | .error e => .error e
      else if c = 't' then parseLit cs p "true" (.bool true)
      else if c = 'f' then parseLit cs p "false" (.bool false)
      else if c = 'n' then parseLit cs p "null" .null
      else if c = '-' ∨ c.isDigit then
        match parseNumber cs p with
        | .ok (n, cs2, p2) => .ok (.num n, cs2, p2)
        | .error e => .error e
      else .error (unexpTok c p)
  termination_by structural fuel cs p => fuel

/-- Model of `JSON.parse` object parsing, just after the `\x7b`. -/
def parseObjStart : Nat → List Char → Nat → Except JsError (JsonValue × List Char × Nat)
  | 0, _, _ => .error ⟨"model: parse fuel exhausted", none⟩
  | fuel + 1, cs, p =>
    let (cs1, p1) := skipWs cs p
    match cs1 with
    | [] => .error unexpEnd
    | c :: rest =>
      if c = '\x7d' then .ok (.obj [], rest, p1 + 1)
      else parseObjLoop fuel cs1 p1 []
  termination_by structural fuel cs p => fuel

/-- Object member loop: expects a key string at the current position. -/
def parseObjLoop : Nat → List Char → Nat → List (String × JsonValue) →
    Except JsError (JsonValue × List Char × Nat)
  | 0, _, _, _ => .error ⟨"model: parse fuel exhausted", none⟩
  | fuel + 1, cs, p, acc =>
    match cs with
    | [] => .error unexpEnd
    | c :: rest =>
      if c ≠ '"' then .error (unexpTok c p)
      else
        match parseStringBody rest (p + 1) "" with
        | .error e => .error e
        | .ok (k, cs2, p2) =>
          let (cs3, p3) := skipWs cs2 p2
          match cs3 with
          | [] => .error unexpEnd
          | c2 :: rest3 =>
            if c2 ≠ ':' then .error (unexpTok c2 p3)
            else
              let (cs4, p4) := skipWs rest3 (p3 + 1)
              match parseValue fuel cs4 p4 with
              | .error e => .error e
              | .ok (v, cs5, p5) =>
                let acc2 := objInsert acc k v
                let (cs6, p6) := skipWs cs5 p5
                match cs6 with
                | [] => .error unexpEnd
                | c3 :: rest6 =>
                  if c3 = '\x7d' then .ok (.obj acc2, rest6, p6 + 1)
                  else if c3 = ',' then
                    let (cs7, p7) := skipWs rest6 (p6 + 1)
                    parseObjLoop fuel cs7 p7 acc2
                  else .error (unexpTok c3 p6)
  termination_by structural fuel cs p acc => fuel

/-- Model of `JSON.parse` array parsing, just after the `[`. -/
def parseArrStart : Nat → List Char → Nat → Except JsError (JsonValue × List Char × Nat)
  | 0, _, _ => .error ⟨"model: parse fuel exhausted", none⟩
  | fuel + 1, cs, p =>
    let (cs1, p1) := skipWs cs p
    match cs1 with
    | [] => .error unexpEnd
    | c :: rest =>
      if c = ']' then .ok (.arr [], rest, p1 + 1)
      else parseArrLoop fuel cs1 p1 []
  termination_by structural fuel cs p => fuel

/-- Array element loop: expects a value at the current position. -/
def parseArrLoop : Nat → List Char → Nat → List JsonValue →
    Except JsError (JsonValue × List Char × Nat)
  | 0, _, _, _ => .error ⟨"model: parse fuel exhausted", none⟩
  | fuel + 1, cs, p, acc =>
    let (cs1, p1) := skipWs cs p
    match parseValue fuel cs1 p1 with
    | .error e => .error e
    | .ok (v, cs2, p2) =>
      let (cs3, p3) := skipWs cs2 p2
      match cs3 with
      | [] => .error unexpEnd
      | c :: rest =>
        if c = ']' then .ok (.arr (acc ++ [v]), rest, p3 + 1)
        else if c = ',' then parseArrLoop fuel rest (p3 + 1) (acc ++ [v])
        else .error (unexpTok c p3)
  termination_by structural fuel cs p acc => fuel

end

/-- Model of `JSON.parse`: parse one value surrounded by whitespace; any
trailing character is a syntax error with its offset. -/
def jsonParse (s : String) : Except JsError JsonValue :=
  let cs := s.toList
  let (cs1, p1) := skipWs cs 0
  match parseValue (cs.length + 1) cs1 p1 with
  | .error e => .error e
  | .ok (v, cs2, p2) =>
    let (cs3, p3) := skipWs cs2 p2
    match cs3 with
    | [] => .ok v
    | c :: _ => .error (unexpTok c p3)

/-- Embedding of `validateJsonSyntax` (`App.tsx` lines 78-124): try
`JSON.parse`; on failure extract the offset from the message (modelled by
`JsError.position`), convert it to (line, column) — both stay at their
initial value 1 when no offset is present — and push a single
`SyntaxError` finding that always carries `line` and `column`.  The
source's `UnknownError` branch is unreachable: `JSON.parse` only throws
`SyntaxError`. -/
def jsonSyntaxCheck (jsonString : String) : ValidationResult :=
  match jsonParse jsonString with
  | .ok _ => ⟨true, []⟩
  | .error e =>
    let lc : Nat × Nat :=
      match e.position with
      | some pos => lineColOf jsonString pos
      | none => (1, 1)
    ⟨false, [⟨"SyntaxError", e.message, none, some lc.1, some lc.2⟩]⟩

/-! ## Model of `JSON.stringify`

`checkDuplicateKeys` (`App.tsx` lines 206-210) stringifies the parse result
twice — once for a plain parse and once for a parse with the identity
reviver `(k, v) => v`, which returns the same value — and compares the
lengths.  Both sides are therefore the same string and the comparison is
always false; the stringifier below exists so that the comparison is
embedded literally.  It is fuelled structurally so that it evaluates by
kernel reduction; the fuel value is irrelevant to the engine's behaviour
because the two stringify results are compared only with each other. -/

/-- Escape a string the way `JSON.stringify` quotes it (the engine never
inspects the result beyond its length, compared against itself). -/
def quoteJsonChar (c : Char) : String :=
  if c = '"' then "\\\""
  else if c = '\\' then "\\\\"
  else if c = '\n' then "\\n"
  else if c = '\t' then "\\t"
  else if c = '\r' then "\\r"
  else String.singleton c

mutual

/-- Fuelled model of `JSON.stringify` on parse results. -/
def jsonStringify : Nat → JsonValue → String
  | 0, _ => ""
  | fuel + 1, v =>
    match v with
    | .null => "null"
    | .bool true => "true"
    | .bool false => "false"
    | .num n => n.repr
    | .str s => "\"" ++ String.join (s.toList.map quoteJsonChar) ++ "\""
    | .arr items => "[" ++ stringifyArr fuel items ++ "]"
    | .obj entries => "\x7b" ++ stringifyObj fuel entries ++ "\x7d"
  termination_by structural fuel v => fuel

/-- Comma-joined stringification of array elements. -/
def stringifyArr : Nat → List JsonValue → String
  | 0, _ => ""
  | _ + 1, [] => ""
  | fuel + 1, [x] => jsonStringify fuel x
  | fuel + 1, x :: y :: rest => jsonStringify fuel x ++ "," ++ stringifyArr fuel (y :: rest)
  termination_by structural fuel l => fuel

/-- Comma-joined stringification of object members. -/
def stringifyObj : Nat → List (String × JsonValue) → String
  | 0, _ => ""
  | _ + 1, [] => ""
  | fuel + 1, [(k, v)] => "\"" ++ k ++ "\":" ++ jsonStringify fuel v
  | fuel + 1, (k, v) :: q :: rest =>
    "\"" ++ k ++ "\":" ++ jsonStringify fuel v ++ "," ++ stringifyObj fuel (q :: rest)
  termination_by structural fuel l => fuel

end

/-- Path join used throughout the tree walkers: `path ? path + "." + key : key`. -/
def joinPath (path key : String) : String :=
  if path = "" then key else path ++ "." ++ key

/-- Finding pushed by the (unreachable) reviver-based duplicate scan
(`App.tsx` lines 264-271). -/
def dupPathErr (path : String) : ValidationError :=
  let k0 := (path.splitOn ".").getLastD ""
  let key := if k0 = "" then path else k0
  ⟨"DuplicateKey", "Duplicate key \"" ++ key ++ "\" found in object at path: " ++ path,
    some path, none, none⟩

mutual

/-- Embedding of `detectDuplicates` (`App.tsx` lines 238-257): walk the
*parsed* value collecting paths of keys repeated inside one object.  Since
`JSON.parse` collapses duplicates, this never finds anything; it is
embedded because the source runs it.  Fuelled for kernel reducibility. -/
def detectDuplicates : Nat → JsonValue → String → List String
  | 0, _, _ => []
  | fuel + 1, v, path =>
    match v with
    | .obj entries => detectDupObj fuel entries path []
    | .arr items => detectDupArr fuel items path 0
    | _ => []
  termination_by structural fuel v path => fuel

/-- Member loop of `detectDuplicates`: report a key already seen in this
object, then recurse into the member value. -/
def detectDupObj : Nat → List (String × JsonValue) → String → List String → List String
  | 0, _, _, _ => []
  | _ + 1, [], _, _ => []
  | fuel + 1, (k, v) :: rest, path, seen =>
    (if seen.contains k then [joinPath path k] else []) ++
      detectDuplicates fuel v (joinPath path k) ++
      detectDupObj fuel rest path (k :: seen)
  termination_by structural fuel l path seen => fuel

/-- Element loop of `detectDuplicates`. -/
def detectDupArr : Nat → List JsonValue → String → Nat → List String
  | 0, _, _, _ => []
  | _ + 1, [], _, _ => []
  | fuel + 1, v :: rest, path, i =>
    detectDuplicates fuel v (path ++ "[" ++ toString i ++ "]") ++
      detectDupArr fuel rest path (i + 1)
  termination_by structural fuel l path i => fuel

end

/-! ## The line-local regex heuristic of `checkDuplicateKeys`

`App.tsx` lines 165-200 split the text on `\n` and run the global regex
`/"([^"]+)"\s*:/g` over each line, grouping match columns per key in a
`Map` (insertion order) and recording, for each key with more than one
match on that line, every position beyond the first. -/

/-- Model of JavaScript `s.split('\n')`: the accumulated current segment is
kept reversed.  `''.split('\n')` is `['']`. -/
def splitLinesAux : List Char → List Char → List String
  | [], acc => [String.mk acc.reverse]
  | c :: rest, acc =>
    if c = '\n' then String.mk acc.reverse :: splitLinesAux rest []
    else splitLinesAux rest (c :: acc)

/-- The line split of `checkDuplicateKeys` (`App.tsx` line 165). -/
def splitLines (s : String) : List String :=
  splitLinesAux s.toList []

/-- Model of JavaScript `String.prototype.startsWith`. -/
def startsWithList : List Char → List Char → Bool
  | _, [] => true
  | [], _ :: _ => false
  | c :: s, p :: ps => c = p && startsWithList s ps

/-- String-level wrapper for `startsWithList`. -/
def startsWithModel (s pre : String) : Bool :=
  startsWithList s.toList pre.toList

/-- One entry of the source's `duplicates` array. -/
structure DupEntry where
  key : String
  line : Nat
  column : Nat
deriving Repr, DecidableEq

/-- JavaScript `\s` on a single line (the line split has removed `\n`). -/
def jsRegexWs (c : Char) : Bool :=
  c = ' ' || c = '\t' || c = '\x0b' || c = '\x0c' || c = '\r' || c = '\n'

/-- Try to match `"([^"]+)"\s*:` at the head of `cs` (which must start with
a quote); returns the captured key and the match length.  The greedy
`[^"]+` necessarily stops at the next quote, so no backtracking is needed. -/
def keyMatchFrom (cs : List Char) : Option (String × Nat) :=
  match cs with
  | '"' :: rest =>
    let keyChars := rest.takeWhile (fun c => c ≠ '"')
    let rest2 := rest.dropWhile (fun c => c ≠ '"')
    match keyChars, rest2 with
    | [], _ => none
    | _ :: _, '"' :: rest3 =>
      let wsChars := rest3.takeWhile jsRegexWs
      match rest3.dropWhile jsRegexWs with
      | ':' :: _ => some (String.mk keyChars, 1 + keyChars.length + 1 + wsChars.length + 1)
      | _ => none
    | _, _ => none
  | _ => none

/-- All matches of the global regex in left-to-right order with their
0-based indices; after a match, scanning resumes at the match end
(`lastIndex` semantics).  Each step consumes at least one character, so
fuel `length + 1` reaches the end of the line. -/
def findKeyMatches : Nat → List Char → Nat → List (String × Nat)
  | 0, _, _ => []
  | _ + 1, [], _ => []
  | fuel + 1, c :: rest, i =>
    if c = '"' then
      match keyMatchFrom (c :: rest) with
      | some (k, len) => (k, i) :: findKeyMatches fuel (List.drop (len - 1) rest) (i + len)
      | none => findKeyMatches fuel rest (i + 1)
    else findKeyMatches fuel rest (i + 1)

/-- Keys in order of first occurrence (JavaScript `Map` iteration order). -/
def dedupFirst : List String → List String → List String
  | [], _ => []
  | k :: rest, seen =>
    if seen.contains k then dedupFirst rest seen else k :: dedupFirst rest (k :: seen)

/-- Duplicates reported by the regex scan for one line: for every key with
at least two matches, one entry per match beyond the first, with 1-based
line and column (`match.index + 1`). -/
def lineDuplicates (line : String) (lineNum : Nat) : List DupEntry :=
  let ms := findKeyMatches (line.length + 1) line.toList 0
  (dedupFirst (ms.map Prod.fst) []).flatMap fun k =>
    let positions := (ms.filter (fun m => m.1 = k)).map (fun m => m.2 + 1)
    if positions.length > 1 then (positions.drop 1).map (fun c => ⟨k, lineNum + 1, c⟩)
    else []

/-- The whole line scan (`App.tsx` lines 165-200). -/
def lineScanDuplicates (s : String) : List DupEntry :=
  ((splitLines s).enum).flatMap fun li => lineDuplicates li.2 li.1

/-- Finding pushed for a regex-scan duplicate (`App.tsx` lines 287-292). -/
def regexDupErr (d : DupEntry) : ValidationError :=
  ⟨"DuplicateKey", "Duplicate key \"" ++ d.key ++ "\" found in object",
    none, some d.line, some d.column⟩

/-! ## The permissive duplicate-key parser (`App.tsx` lines 296-469)

The source's final check runs a hand-written scanner over the raw text.
Its mutable cursor (`at`, `ch`) becomes `ScanState`; note that `ch` holds
the character at index `atP - 1` (the source reads `charAt(at)` and then
increments `at`), and `ch = none` models the empty string `charAt`
returns past the end.  Thrown `SyntaxError`s become `PFail`, carrying the
findings pushed onto the shared result before the throw.  The scanner is
reachable only when `JSON.parse` succeeded (the earlier `try` block
returns otherwise), in which case every loop terminates within the given
fuel; the fuel-exhaustion branches model the scanner's only
non-terminating path (an unterminated string literal, `App.tsx` line 321,
which cannot occur after a successful parse). -/

/-- The scanner cursor: `atP` is the source's `at`, `ch` the current
one-character string (`none` for the falsy empty string). -/
structure ScanState where
  atP : Nat
  ch : Option Char
deriving Repr, DecidableEq

/-- A thrown `SyntaxError` together with the findings pushed before it. -/
structure PFail where
  message : String
  found : List ValidationError
deriving Repr, DecidableEq

/-- The source's `next()`: read `charAt(at)`, then increment `at`. -/
def pNext (input : List Char) (st : ScanState) : ScanState :=
  ⟨st.atP + 1, input.get? st.atP⟩

/-- The source's `white()`: skip while `ch` is truthy and `ch <= ' '`. -/
def pWhite (input : List Char) : Nat → ScanState → ScanState
  | 0, st => st
  | fuel + 1, st =>
    match st.ch with
    | some c => if c ≤ ' ' then pWhite input fuel (pNext input st) else st
    | none => st

/-- The default branch of the source's `value()`: skip a primitive token
while `ch` is truthy, above space, and not a delimiter. -/
def pNumSkip (input : List Char) : Nat → ScanState → ScanState
  | 0, st => st
  | fuel + 1, st =>
    match st.ch with
    | some c =>
      if ' ' < c ∧ c ≠ ',' ∧ c ≠ ']' ∧ c ≠ '\x7d' then pNumSkip input fuel (pNext input st)
      else st
    | none => st

/-- The loop of the source's `string()`: advance; a closing quote ends the
string (consuming one more character); after a backslash the next raw
character is appended (the scanner does not decode escapes). -/
def pString (input : List Char) : Nat → ScanState → String → String × ScanState
  | 0, st, str => (str, st)
  | fuel + 1, st, str =>
    let st1 := pNext input st
    if st1.ch = some '"' then (str, pNext input st1)
    else
      match st1.ch with
      | none => pString input fuel st1 str
      | some c =>
        if c = '\\' then
          let st2 := pNext input st1
          match st2.ch with
          | some c2 => pString input fuel st2 (str.push c2)
          | none => pString input fuel st2 str
        else pString input fuel st1 (str.push c)

/-- The source's `string()`: only runs its loop when positioned on a quote. -/
def pStringFn (input : List Char) (st : ScanState) : String × ScanState :=
  if st.ch = some '"' then pString input (input.length + 2) st "" else ("", st)

/-- The duplicate finding pushed by the scanner (`App.tsx` lines 357-379):
the position is *estimated* as `at - key.length - 3` and converted with the
same line/column loop as the syntax checker. -/
def permDupErr (input : List Char) (key : String) (atP : Nat) : ValidationError :=
  let lc := lineColList input (atP - key.length - 3)
  ⟨"DuplicateKey", "Duplicate key \"" ++ key ++ "\" found in object",
    none, some lc.1, some lc.2⟩

mutual

/-- The source's `value()` (`App.tsx` lines 429-450). -/
def pValue (input : List Char) : Nat → ScanState → Except PFail (ScanState × List ValidationError)
  | 0, _ => .error ⟨"model: scan fuel exhausted", []⟩
  | fuel + 1, st0 =>
    let st := pWhite input (input.length + 2) st0
    match st.ch with
    | some '\x7b' => pObject input fuel st
    | some '[' => pArray input fuel st
    | some '"' => .ok ((pStringFn input st).2, [])
    | some '-' => .ok (pNumSkip input (input.length + 2) (pNext input st), [])
    | some _ => .ok (pNumSkip input (input.length + 2) st, [])
    | none => .ok (pNumSkip input (input.length + 2) st, [])
  termination_by structural fuel st => fuel

/-- The source's `object()` (`App.tsx` lines 332-402): silently returns on a
non-brace; on `\x7b` consumes it, handles the empty object, and otherwise
enters the member loop. -/
def pObject (input : List Char) : Nat → ScanState → Except PFail (ScanState × List ValidationError)
  | 0, _ => .error ⟨"model: scan fuel exhausted", []⟩
  | fuel + 1, st =>
    if st.ch = some '\x7b' then
      let st1 := pWhite input (input.length + 2) (pNext input st)
      if st1.ch = some '\x7d' then .ok (pNext input st1, [])
      else pObjLoop input fuel st1 []
    else .ok (st, [])
  termination_by structural fuel st => fuel

/-- The member loop of `object()`: each `break` in the source falls through
to `error("Bad object")`, embedded as the corresponding `.error`. -/
def pObjLoop (input : List Char) : Nat → ScanState → List String →
    Except PFail (ScanState × List ValidationError)
  | 0, _, _ => .error ⟨"model: scan fuel exhausted", []⟩
  | fuel + 1, st, keys =>
    match st.ch with
    | none => .error ⟨"Bad object", []⟩
    | some _ =>
      let st1 := pWhite input (input.length + 2) st
      if st1.ch ≠ some '"' then .error ⟨"Bad object", []⟩
      else
        let ks := pStringFn input st1
        let key := ks.1
        let st2 := pWhite input (input.length + 2) ks.2
        if st2.ch ≠ some ':' then .error ⟨"Bad object", []⟩
        else
          let st3 := pNext input st2
          let newFound := if keys.contains key then [permDupErr input key st3.atP] else []
          match pValue input fuel st3 with
          | .error fl => .error ⟨fl.message, newFound ++ fl.found⟩
          | .ok (st4, vf) =>
            let acc := newFound ++ vf
            let st5 := pWhite input (input.length + 2) st4
            if st5.ch = some '\x7d' then .ok (pNext input st5, acc)
            else if st5.ch ≠ some ',' then .error ⟨"Bad object", acc⟩
            else
              match pObjLoop input fuel (pNext input st5) (key :: keys) with
              | .error fl => .error ⟨fl.message, acc ++ fl.found⟩
              | .ok (st6, rf) => .ok (st6, acc ++ rf)
  termination_by structural fuel st keys => fuel

/-- The source's `array()` (`App.tsx` lines 404-427): a non-bracket falls
through to `error("Bad array")`. -/
def pArray (input : List Char) : Nat → ScanState → Except PFail (ScanState × List ValidationError)
  | 0, _ => .error ⟨"model: scan fuel exhausted", []⟩
  | fuel + 1, st =>
    if st.ch = some '[' then
      let st1 := pWhite input (input.length + 2) (pNext input st)
      if st1.ch = some ']' then .ok (pNext input st1, [])
      else pArrLoop input fuel st1
    else .error ⟨"Bad array", []⟩
  termination_by structural fuel st => fuel

/-- The element loop of `array()`. -/
def pArrLoop (input : List Char) : Nat → ScanState →
    Except PFail (ScanState × List ValidationError)
  | 0, _ => .error ⟨"model: scan fuel exhausted", []⟩
  | fuel + 1, st =>
    match st.ch with
    | none => .error ⟨"Bad array", []⟩
    | some _ =>
      match pValue input fuel st with
      | .error fl => .error fl
      | .ok (st2, vf) =>
        let st3 := pWhite input (input.length + 2) st2
        if st3.ch = some ']' then .ok (pNext input st3, vf)
        else if st3.ch ≠ some ',' then .error ⟨"Bad array", vf⟩
        else
          let st4 := pWhite input (input.length + 2) (pNext input st3)
          match pArrLoop input fuel st4 with
          | .error fl => .error ⟨fl.message, vf ++ fl.found⟩
          | .ok (st5, rf) => .ok (st5, vf ++ rf)
  termination_by structural fuel st => fuel

end

/-- Top level of the permissive scanner (`App.tsx` lines 452-459): `white();
value(); white();` and any trailing truthy character throws the sentinel
`Syntax error`.  The initial state is the source's `at = 0, ch = ' '`. -/
def permissiveParse (s : String) : Except PFail (List ValidationError) :=
  let input := s.toList
  let st1 := pWhite input (input.length + 2) ⟨0, some ' '⟩
  match pValue input (2 * input.length + 8) st1 with
  | .error fl => .error fl
  | .ok (st2, found) =>
    let st3 := pWhite input (input.length + 2) st2
    match st3.ch with
    | some _ => .error ⟨"Syntax error", found⟩
    | none => .ok found

/-- Final stages of `checkDuplicateKeys` shared by both `try` outcomes: push
the line-scan duplicates (`App.tsx` lines 284-294), then run the permissive
scanner (lines 296-469).  When the scanner throws something other than the
sentinel `Syntax error` (that is, `Bad object`/`Bad array`), the source
defers to `validateJsonSyntax` and returns its report when invalid;
otherwise the accumulated result — including findings pushed before the
throw — stands. -/
def finishDupStages (jsonString : String) (branch2Errs : List ValidationError)
    (duplicates : List DupEntry) : ValidationResult :=
  let r1 := branch2Errs ++ duplicates.map regexDupErr
  match permissiveParse jsonString with
  | .ok found => (r1 ++ found).foldl addErr ⟨true, []⟩
  | .error fl =>
    if startsWithModel fl.message "Syntax error" = false then
      let syntaxResult := jsonSyntaxCheck jsonString
      if syntaxResult.valid = false then syntaxResult
      else (r1 ++ fl.found).foldl addErr ⟨true, []⟩
    else (r1 ++ fl.found).foldl addErr ⟨true, []⟩

/-- Embedding of `checkDuplicateKeys` (`App.tsx` lines 158-472).  Stage 1 is
the line-local regex scan; stage 2 is the `try` block: on a parse failure
it defers to `validateJsonSyntax` and returns that report when invalid
(dropping any line-scan duplicates), while on success it compares the
strict and reviver stringifications — the identity reviver yields the same
value, so the comparison never fires — and would report
`detectDuplicates` paths if it did.  The surviving findings and the
permissive scanner's findings are then pushed in source order. -/
def checkDuplicateKeys (jsonString : String) : ValidationResult :=
  let duplicates := lineScanDuplicates jsonString
  match jsonParse jsonString with
  | .error _ =>
    let syntaxResult := jsonSyntaxCheck jsonString
    if syntaxResult.valid = false then syntaxResult
    else finishDupStages jsonString [] duplicates
  | .ok parsed =>
    let strictJSON := jsonStringify (jsonString.length + 1) parsed
    let lenientJSON := jsonStringify (jsonString.length + 1) parsed
    let branch2Errs :=
      if strictJSON.length ≠ lenientJSON.length then
        (detectDuplicates (jsonString.length + 1) parsed "").map dupPathErr
      else []
    finishDupStages jsonString branch2Errs duplicates

/-! ## The anomaly walker `checkJsonAnomalies` (`App.tsx` lines 479-597)

The source threads one shared `result` through three traversals; each
traversal only pushes findings, so the embedding has each traversal return
its findings and folds them with `addErr` in source order.  The source's
first stage, `try JSON.stringify catch TypeError('circular')`, can only
throw on a cyclic in-memory object graph; inductive `JsonValue` trees are
acyclic and the stage never contributes a finding (nor could a cyclic
input even be constructed here), so it is noted rather than run. -/

/-- Finding for a non-finite number (`App.tsx` lines 505-509). -/
def invalidNumberErr (n : JsonNumber) (path : String) : ValidationError :=
  ⟨"InvalidNumber", "Invalid number value: " ++ n.repr, some path, none, none⟩

mutual

/-- Embedding of `checkForInvalidNumbers` (`App.tsx` lines 499-522). -/
def checkForInvalidNumbers : JsonValue → String → List ValidationError
  | .null, _ => []
  | .num n, path => if n.isFinite = false then [invalidNumberErr n path] else []
  | .arr items, path => checkNumArr items path 0
  | .obj entries, path => checkNumObj entries path
  | _, _ => []

/-- Element loop: `forEach((item, index) => ... path[index])`. -/
def checkNumArr : List JsonValue → String → Nat → List ValidationError
  | [], _, _ => []
  | v :: rest, path, i =>
    checkForInvalidNumbers v (path ++ "[" ++ toString i ++ "]") ++ checkNumArr rest path (i + 1)

/-- Member loop: `Object.entries(...).forEach(([key, value]) => ...)`. -/
def checkNumObj : List (String × JsonValue) → String → List ValidationError
  | [], _ => []
  | (k, v) :: rest, path => checkForInvalidNumbers v (joinPath path k) ++ checkNumObj rest path

end

/-- Finding for excessive nesting (`App.tsx` lines 528-532); note it carries
no path. -/
def excessiveNestingErr : ValidationError :=
  ⟨"ExcessiveNesting", "JSON exceeds maximum recommended nesting depth of 100",
    none, none, none⟩

mutual

/-- Embedding of `checkDepth` (`App.tsx` lines 526-557): a call at depth
greater than 100 pushes a finding and returns without descending; leaves
return their own depth; containers fold their children at depth + 1,
keeping the maximum returned depth. -/
def checkDepth : JsonValue → Nat → List ValidationError × Nat
  | v, d =>
    if d > 100 then ([excessiveNestingErr], d)
    else
      match v with
      | .arr items => checkDepthArr items d d
      | .obj entries => checkDepthObj entries d d
      | _ => ([], d)

/-- Child fold for arrays: accumulates findings and the running maximum. -/
def checkDepthArr : List JsonValue → Nat → Nat → List ValidationError × Nat
  | [], _, m => ([], m)
  | v :: rest, d, m =>
    let r := checkDepth v (d + 1)
    let r2 := checkDepthArr rest d (max m r.2)
    (r.1 ++ r2.1, r2.2)

/-- Child fold for object member values. -/
def checkDepthObj : List (String × JsonValue) → Nat → Nat → List ValidationError × Nat
  | [], _, m => ([], m)
  | (_, v) :: rest, d, m =>
    let r := checkDepth v (d + 1)
    let r2 := checkDepthObj rest d (max m r.2)
    (r.1 ++ r2.1, r2.2)

end

/-- Finding for an oversized array (`App.tsx` lines 566-569). -/
def largeArrayErr (path : String) (len : Nat) : ValidationError :=
  ⟨"LargeArray",
    "Array at " ++ (if path = "" then "root" else path) ++ " contains " ++ toString len ++
      " items, which exceeds the recommended limit of 100000", some path, none, none⟩

/-- Finding for an oversized object (`App.tsx` lines 574-578). -/
def largeObjectErr (path : String) (len : Nat) : ValidationError :=
  ⟨"LargeObject",
    "Object at " ++ (if path = "" then "root" else path) ++ " contains " ++ toString len ++
      " properties, which exceeds the recommended limit of 100000", some path, none, none⟩

mutual

/-- Embedding of `checkSize` (`App.tsx` lines 563-592).  An array longer
than 100000 takes the first branch: it pushes `LargeArray` and — because
the descent lives in the `else if` branch — is *not* descended into.  Any
other non-null object (including smaller arrays, whose `Object.keys`
length equals their length and is below the limit) is checked for the key
count and then descended. -/
def checkSize : JsonValue → String → List ValidationError
  | .arr items, path =>
    if items.length > 100000 then [largeArrayErr path items.length]
    else
      (if items.length > 100000 then [largeObjectErr path items.length] else []) ++
        checkSizeArr items path 0
  | .obj entries, path =>
    (if entries.length > 100000 then [largeObjectErr path entries.length] else []) ++
      checkSizeObj entries path
  | _, _ => []

/-- Element descent: `forEach((item, index) => checkSize(item, path[index]))`. -/
def checkSizeArr : List JsonValue → String → Nat → List ValidationError
  | [], _, _ => []
  | v :: rest, path, i =>
    checkSize v (path ++ "[" ++ toString i ++ "]") ++ checkSizeArr rest path (i + 1)

/-- Member descent over `Object.entries`. -/
def checkSizeObj : List (String × JsonValue) → String → List ValidationError
  | [], _ => []
  | (k, v) :: rest, path => checkSize v (joinPath path k) ++ checkSizeObj rest path

end

/-- Embedding of `checkJsonAnomalies` (`App.tsx` lines 479-597): the three
traversals' findings are pushed onto one result in source order (the
circular-reference stage never fires on a tree, see the section comment). -/
def checkJsonAnomalies (jsonData : JsonValue) : ValidationResult :=
  let numErrs := checkForInvalidNumbers jsonData ""
  let depthErrs := (checkDepth jsonData 0).1
  let sizeErrs := checkSize jsonData ""
  (numErrs ++ depthErrs ++ sizeErrs).foldl addErr ⟨true, []⟩

/-! ## The external Ajv collaborator and `validateJsonSchema` -/

/-- One entry of Ajv's `validate.errors`. -/
structure AjvError where
  message : Option String
  instancePath : String
deriving Repr, DecidableEq

/-- Model of the external Ajv library (`new Ajv({allErrors: true})`).
`compile` throws — modelled as `Except.error` — when the supplied schema
itself does not compile; a compiled validator reports its errors as a
list, the boolean result of `validate(data)` being the list's emptiness
(with `allErrors`, Ajv sets `validate.errors` to a non-empty array exactly
when validation fails). -/
structure AjvModel where
  compile : JsonValue → Except String (JsonValue → List AjvError)

/-- An Ajv model whose compiled validators accept everything; used to
instantiate theorems at concrete inputs. -/
def ajvStub : AjvModel :=
  ⟨fun _ => .ok (fun _ => [])⟩

/-- An Ajv model for which schema compilation fails. -/
def ajvFailing : AjvModel :=
  ⟨fun _ => .error "schema is invalid: data/type must be string"⟩

/-- Embedding of `validateJsonSchema` (`App.tsx` lines 132-151).  The call
`ajv.compile(schema)` is *not* guarded by any `try`, so a compilation
throw propagates out of the function: that is the `Except.error` case.
On success the result is `valid: !!valid` with the mapped errors when
invalid. -/
def validateJsonSchema (ajv : AjvModel) (jsonData schema : JsonValue) :
    Except String ValidationResult :=
  match ajv.compile schema with
  | .error msg => .error msg
  | .ok validate =>
    let errs := validate jsonData
    let valid := errs.isEmpty
    .ok ⟨valid,
      if valid = false then
        errs.map fun e =>
          ⟨"SchemaError", e.message.getD "Unknown schema validation error",
            some e.instancePath, none, none⟩
      else []⟩

/-- Embedding of `validateJson` (`App.tsx` lines 605-635): duplicate-key
check first, returning its report when invalid; then the syntax check,
returning its report when invalid; then `JSON.parse` — which cannot fail
at this point, the dead branch returns an empty report — then the anomaly
walk, and, when a schema is supplied, the schema check with the merged
verdict.  The uncaught schema-compilation throw propagates, hence the
`Except`. -/
def validateJson (ajv : AjvModel) (jsonString : String) (schema : Option JsonValue) :
    Except String ValidationResult :=
  let duplicateKeysResult := checkDuplicateKeys jsonString
  if duplicateKeysResult.valid = false then .ok duplicateKeysResult
  else
    let syntaxResult := jsonSyntaxCheck jsonString
    if syntaxResult.valid = false then .ok syntaxResult
    else
      match jsonParse jsonString with
      | .error _ => .ok ⟨true, []⟩
      | .ok jsonData =>
        let anomalyResult := checkJsonAnomalies jsonData
        match schema with
        | none => .ok anomalyResult
        | some sch =>
          match validateJsonSchema ajv jsonData sch with
          | .error msg => .error msg
          | .ok schemaResult =>
            .ok ⟨anomalyResult.valid && schemaResult.valid,
              anomalyResult.errors ++ schemaResult.errors⟩

/-- Embedding of the presentation wrapper `validateJsonInput`
(`JsonValidator.tsx` lines 30-41) as the result it stores: the guard
`!jsonInput.trim()` is truthy exactly when the input is empty or consists
only of whitespace, in which case the wrapper produces the single
`EmptyInput` finding without invoking the engine; otherwise it calls
`validateJson` without a schema. -/
def validateJsonInput (ajv : AjvModel) (jsonInput : String) : Except String ValidationResult :=
  if jsonInput.toList.all Char.isWhitespace then
    .ok ⟨false, [⟨"EmptyInput", "JSON input is empty", none, none, none⟩]⟩
  else validateJson ajv jsonInput none
/-! ## Shared lemmas -/

/-- Folding `addErr` from an already-invalid result appends the findings. -/
lemma foldl_addErr_false (l : List ValidationError) (es : List ValidationError) :
    List.foldl addErr ⟨false, es⟩ l = ⟨false, es ++ l⟩ := by
  induction l generalizing es with
  | nil => simp
  | cons e t ih => simp [addErr, ih]

/-- Folding `addErr` over a non-empty finding list invalidates the result
and appends the findings. -/
lemma foldl_addErr_cons (e : ValidationError) (t : List ValidationError)
    (r : ValidationResult) :
    List.foldl addErr r (e :: t) = ⟨false, r.errors ++ e :: t⟩ := by
  have h1 : addErr r e = ⟨false, r.errors ++ [e]⟩ := rfl
  show List.foldl addErr (addErr r e) t = _
  rw [h1, foldl_addErr_false]
  simp

/-- Emptiness of an appended list. -/
lemma isEmpty_append (l1 l2 : List ValidationError) :
    (l1 ++ l2).isEmpty = (l1.isEmpty && l2.isEmpty) := by
  cases l1 <;> simp

/-- `addErr` folds preserve the report invariant. -/
lemma reportInv_foldl (l : List ValidationError) (r : ValidationResult)
    (h : reportInv r) : reportInv (List.foldl addErr r l) := by
  cases l with
  | nil => simpa
  | cons e t =>
    rw [foldl_addErr_cons]
    unfold reportInv
    cases r.errors <;> simp

/-- The syntax checker satisfies the report invariant. -/
lemma reportInv_syntaxCheck (s : String) : reportInv (jsonSyntaxCheck s) := by
  unfold jsonSyntaxCheck
  cases jsonParse s <;> simp [reportInv]

/-- The final stages of the duplicate-key check satisfy the invariant. -/
lemma reportInv_finishDupStages (s : String) (b : List ValidationError)
    (d : List DupEntry) : reportInv (finishDupStages s b d) := by
  unfold finishDupStages
  dsimp only
  split
  · exact reportInv_foldl _ _ rfl
  · split
    · split
      · exact reportInv_syntaxCheck s
      · exact reportInv_foldl _ _ rfl
    · exact reportInv_foldl _ _ rfl

/-- The duplicate-key check satisfies the invariant. -/
lemma reportInv_checkDuplicateKeys (s : String) : reportInv (checkDuplicateKeys s) := by
  unfold checkDuplicateKeys
  dsimp only
  split
  · split
    · exact reportInv_syntaxCheck s
    · exact reportInv_finishDupStages s _ _
  · exact reportInv_finishDupStages s _ _

/-- The anomaly walker satisfies the invariant. -/
lemma reportInv_checkJsonAnomalies (v : JsonValue) : reportInv (checkJsonAnomalies v) := by
  unfold checkJsonAnomalies
  exact reportInv_foldl _ _ rfl

/-- A schema report, when one is returned, satisfies the invariant. -/
lemma reportInv_validateJsonSchema (ajv : AjvModel) (d sch : JsonValue)
    (r : ValidationResult) (h : validateJsonSchema ajv d sch = .ok r) : reportInv r := by
  unfold validateJsonSchema at h
  cases hc : ajv.compile sch with
  | error msg => rw [hc] at h; exact absurd h (by simp)
  | ok validate =>
    rw [hc] at h
    dsimp only at h
    simp only [Except.ok.injEq] at h
    subst h
    unfold reportInv
    cases he : validate d with
    | nil => simp [he]
    | cons a t => simp [he]

/-- Merging two invariant-satisfying reports preserves the invariant. -/
lemma reportInv_merge (a b : ValidationResult) (ha : reportInv a) (hb : reportInv b) :
    reportInv (⟨a.valid && b.valid, a.errors ++ b.errors⟩ : ValidationResult) := by
  unfold reportInv at ha hb ⊢
  simp only [isEmpty_append]
  rw [ha, hb]

/-- The orchestrator's report, when one is returned, satisfies the invariant. -/
lemma reportInv_validateJson (ajv : AjvModel) (s : String) (sch : Option JsonValue)
    (r : ValidationResult) (h : validateJson ajv s sch = .ok r) : reportInv r := by
  unfold validateJson at h
  dsimp only at h
  split at h
  · simp only [Except.ok.injEq] at h
    subst h
    exact reportInv_checkDuplicateKeys s
  · split at h
    · simp only [Except.ok.injEq] at h
      subst h
      exact reportInv_syntaxCheck s
    · split at h
      · simp only [Except.ok.injEq] at h
        subst h
        exact rfl
      · split at h
        · simp only [Except.ok.injEq] at h
          subst h
          exact reportInv_checkJsonAnomalies _
        · split at h
          · exact absurd h (by simp)
          · rename_i schemaResult hsch
            simp only [Except.ok.injEq] at h
            subst h
            exact reportInv_merge _ _ (reportInv_checkJsonAnomalies _)
              (reportInv_validateJsonSchema ajv _ _ schemaResult hsch)

/-- A parse failure makes the syntax checker report invalid. -/
lemma syntaxCheck_invalid_of_parseError (s : String) (e : JsError)
    (h : jsonParse s = .error e) : (jsonSyntaxCheck s).valid = false := by
  unfold jsonSyntaxCheck
  rw [h]

/-- When `JSON.parse` fails, `checkDuplicateKeys` returns the syntax
checker's report: the catch block (`App.tsx` lines 274-281) early-returns
it, discarding any line-scan duplicates found before. -/
lemma checkDuplicateKeys_of_parseError (s : String) (e : JsError)
    (h : jsonParse s = .error e) : checkDuplicateKeys s = jsonSyntaxCheck s := by
  unfold checkDuplicateKeys
  rw [h]
  dsimp only
  rw [if_pos (syntaxCheck_invalid_of_parseError s e h)]

/-- C1: for every operation that returns a report
(`checkSyntax`/`validateJsonSyntax` embedded as `jsonSyntaxCheck`,
`checkDuplicateKeys`, `checkAnomalies`/`checkJsonAnomalies`,
`validateAgainstSchema`/`validateJsonSchema`, `validate`/`validateJson`)
and every input, the returned report has `valid = true` with an empty
error list or `valid = false` with a non-empty one, never the reverse
combination. -/
theorem report_invariant_all_operations :
    (∀ s, reportInv (jsonSyntaxCheck s)) ∧
    (∀ s, reportInv (checkDuplicateKeys s)) ∧
    (∀ v, reportInv (checkJsonAnomalies v)) ∧
    (∀ ajv jsonData schema r, validateJsonSchema ajv jsonData schema = .ok r → reportInv r) ∧
    (∀ ajv s schema r, validateJson ajv s schema = .ok r → reportInv r) :=
  ⟨reportInv_syntaxCheck, reportInv_checkDuplicateKeys, reportInv_checkJsonAnomalies,
    reportInv_validateJsonSchema, reportInv_validateJson⟩

/-- Witness for C1 at concrete inputs, discharging the two equational
hypotheses by evaluation. -/
theorem report_invariant_all_operations_witness :
    reportInv (jsonSyntaxCheck "\x7b") ∧
    reportInv (checkDuplicateKeys "\x7b\"a\":1,\"a\":2\x7d") ∧
    reportInv (checkJsonAnomalies JsonValue.null) ∧
    reportInv ⟨true, []⟩ ∧
    reportInv ⟨false,
      [⟨"SyntaxError", "Unexpected end of JSON input", none, some 1, some 1⟩]⟩ :=
  ⟨report_invariant_all_operations.1 "\x7b",
   report_invariant_all_operations.2.1 "\x7b\"a\":1,\"a\":2\x7d",
   report_invariant_all_operations.2.2.1 JsonValue.null,
   report_invariant_all_operations.2.2.2.1 ajvStub JsonValue.null (JsonValue.obj [])
     ⟨true, []⟩ rfl,
   report_invariant_all_operations.2.2.2.2 ajvStub "" none
     ⟨false, [⟨"SyntaxError", "Unexpected end of JSON input", none, some 1, some 1⟩]⟩ rfl⟩

/-- C2 (counterexample): the engine's `validate`/`validateJson` does *not*
special-case empty input — on the empty string it reaches the duplicate-key
stage, whose catch defers to the syntax checker, and returns a single
`SyntaxError` finding rather than an `EmptyInput` one. -/
theorem empty_input_engine_counterexample :
    validateJson ajvStub "" none =
      .ok ⟨false,
        [⟨"SyntaxError", "Unexpected end of JSON input", none, some 1, some 1⟩]⟩ := by
  rfl

/-- C2 (amended): the `EmptyInput` finding is produced by the presentation
wrapper `validateJsonInput`, not by `validateJson`: for every input that is
empty or all-whitespace the wrapper returns exactly one `EmptyInput`
finding and runs no engine stage. -/
theorem empty_input_ui_wrapper (ajv : AjvModel) (s : String)
    (h : s.toList.all Char.isWhitespace = true) :
    validateJsonInput ajv s =
      .ok ⟨false, [⟨"EmptyInput", "JSON input is empty", none, none, none⟩]⟩ := by
  unfold validateJsonInput
  rw [if_pos h]

/-- Witness for the amended C2 on a two-space input. -/
theorem empty_input_ui_wrapper_witness :
    ("  ".toList.all Char.isWhitespace = true) ∧
    validateJsonInput ajvStub "  " =
      .ok ⟨false, [⟨"EmptyInput", "JSON input is empty", none, none, none⟩]⟩ :=
  ⟨by decide, empty_input_ui_wrapper ajvStub "  " (by decide)⟩

/-- C3 (counterexample): on the single-line text with one repeated key the
engine reports the duplicate **twice** — once from the line-local regex
scan and once from the permissive scanner — not exactly once as claimed. -/
theorem duplicate_key_single_finding_counterexample :
    (validateJson ajvStub "\x7b\"a\":1,\"a\":2\x7d" none).map
      (fun r => (r.valid, r.errors.countP (fun er => er.type == "DuplicateKey"),
        r.errors.length)) = .ok (false, 2, 2) := by
  rfl

/-- C3 (amended): each repeat beyond the first yields one `DuplicateKey`
finding **per heuristic** (line-scan and permissive scanner): two findings
for one repeat, four findings for two repeats, all referencing key `a`. -/
theorem duplicate_key_two_findings_per_heuristic :
    validateJson ajvStub "\x7b\"a\":1,\"a\":2\x7d" none =
      .ok ⟨false,
        [⟨"DuplicateKey", "Duplicate key \"a\" found in object", none, some 1, some 8⟩,
         ⟨"DuplicateKey", "Duplicate key \"a\" found in object", none, some 1, some 9⟩]⟩ ∧
    validateJson ajvStub "\x7b\"a\":1,\"a\":2,\"a\":3\x7d" none =
      .ok ⟨false,
        [⟨"DuplicateKey", "Duplicate key \"a\" found in object", none, some 1, some 8⟩,
         ⟨"DuplicateKey", "Duplicate key \"a\" found in object", none, some 1, some 14⟩,
         ⟨"DuplicateKey", "Duplicate key \"a\" found in object", none, some 1, some 9⟩,
         ⟨"DuplicateKey", "Duplicate key \"a\" found in object", none, some 1, some 15⟩]⟩ :=
  ⟨rfl, rfl⟩

/-- C4 (counterexample): text with a duplicate key inside one object scope
followed by an unrelated syntax error (a stray `]`) yields the
`SyntaxError` report, not the `DuplicateKey` finding — the catch inside
`checkDuplicateKeys` defers to the syntax checker and returns its report. -/
theorem duplicate_vs_syntax_precedence_counterexample :
    validateJson ajvStub "\x7b\"a\":1,\"a\":2\x7d]" none =
      .ok ⟨false,
        [⟨"SyntaxError", "Unexpected token ] in JSON at position 13",
          none, some 1, some 14⟩]⟩ := by
  rfl

/-- C4 (amended): syntax-error detection takes precedence over
duplicate-key detection: for every input on which `JSON.parse` fails —
in particular one containing a duplicate key and a later unrelated syntax
error — `validate` returns the syntax checker's report, whose single
finding is a `SyntaxError`; any duplicate-key findings are discarded. -/
theorem syntax_error_precedence (ajv : AjvModel) (s : String) (e : JsError)
    (h : jsonParse s = .error e) :
    validateJson ajv s none = .ok (jsonSyntaxCheck s) ∧
    (jsonSyntaxCheck s).errors.map (fun er => er.type) = ["SyntaxError"] := by
  have hd : checkDuplicateKeys s = jsonSyntaxCheck s :=
    checkDuplicateKeys_of_parseError s e h
  have hv : (jsonSyntaxCheck s).valid = false := syntaxCheck_invalid_of_parseError s e h
  constructor
  · unfold validateJson
    dsimp only
    rw [hd, if_pos hv]
  · unfold jsonSyntaxCheck
    rw [h]
    simp

/-- Witness for the amended C4 on truncated text with a duplicate key. -/
theorem syntax_error_precedence_witness :
    (jsonParse "\x7b\"a\":1,\"a\":2" = .error unexpEnd) ∧
    validateJson ajvStub "\x7b\"a\":1,\"a\":2" none =
      .ok (jsonSyntaxCheck "\x7b\"a\":1,\"a\":2") ∧
    (jsonSyntaxCheck "\x7b\"a\":1,\"a\":2").errors.map (fun er => er.type) =
      ["SyntaxError"] :=
  ⟨rfl, (syntax_error_precedence ajvStub "\x7b\"a\":1,\"a\":2" unexpEnd rfl).1,
    (syntax_error_precedence ajvStub "\x7b\"a\":1,\"a\":2" unexpEnd rfl).2⟩

/-- C5 (counterexample): well-formed text in which the key `a` occurs in
two *distinct* sibling objects on the same text line — no single object
repeats a key — is nevertheless flagged: the line-local regex heuristic
reports a `DuplicateKey` finding, so the result is not `valid = true`. -/
theorem cross_scope_same_line_counterexample :
    checkDuplicateKeys "[\x7b\"a\":1\x7d,\x7b\"a\":2\x7d]" =
      ⟨false,
        [⟨"DuplicateKey", "Duplicate key \"a\" found in object",
          none, some 1, some 11⟩]⟩ := by
  rfl

/-- C5 (amended): the scope-aware permissive scanner indeed reports nothing
for identical keys in distinct objects (even on one line), and the whole
`checkDuplicateKeys` returns `valid = true` with no findings when the two
occurrences lie on *different* text lines; only the same-line case is
wrongly flagged, by the line-local regex heuristic. -/
theorem cross_scope_scoping_behaviour :
    permissiveParse "[\x7b\"a\":1\x7d,\x7b\"a\":2\x7d]" = .ok [] ∧
    checkDuplicateKeys "[\x7b\"a\":1\x7d,\n\x7b\"a\":2\x7d]" = ⟨true, []⟩ :=
  ⟨rfl, rfl⟩

/-- The line/column fold never drops below (1, 1). -/
lemma lineCol_fold_ge_one (cs : List Char) (l : List Nat) (init : Nat × Nat)
    (h1 : 1 ≤ init.1) (h2 : 1 ≤ init.2) :
    1 ≤ (l.foldl
      (fun lc i => if cs.get? i = some '\n' then (lc.1 + 1, 1) else (lc.1, lc.2 + 1))
      init).1 ∧
    1 ≤ (l.foldl
      (fun lc i => if cs.get? i = some '\n' then (lc.1 + 1, 1) else (lc.1, lc.2 + 1))
      init).2 := by
  induction l generalizing init with
  | nil => exact ⟨h1, h2⟩
  | cons i t ih =>
    simp only [List.foldl_cons]
    by_cases hc : cs.get? i = some '\n'
    · rw [if_pos hc]
      exact ih _ (by omega) (by omega)
    · rw [if_neg hc]
      exact ih _ (by omega) (by omega)

/-- C9 (counterexample): a parse failure that exposes no character offset
(empty input: `Unexpected end of JSON input` has no position) still yields
a finding whose `line` and `column` are *present* with the defaulted
values 1, 1 — they are not omitted as the claim states. -/
theorem syntax_no_offset_line_present_counterexample :
    jsonParse "" = .error unexpEnd ∧ unexpEnd.position = none ∧
    jsonSyntaxCheck "" =
      ⟨false,
        [⟨"SyntaxError", "Unexpected end of JSON input", none, some 1, some 1⟩]⟩ :=
  ⟨rfl, rfl, rfl⟩

/-- C9 (amended): on a parse failure the checker returns a single
`SyntaxError` finding carrying the parser's message; `line`/`column` are
always present — derived from the offset when one is exposed, defaulting
to 1, 1 when none is — and the derived positions are 1-based. -/
theorem syntax_error_line_column (s : String) (e : JsError)
    (h : jsonParse s = .error e) :
    (jsonSyntaxCheck s).errors =
      [⟨"SyntaxError", e.message, none,
        some (match e.position with | some p => (lineColOf s p).1 | none => 1),
        some (match e.position with | some p => (lineColOf s p).2 | none => 1)⟩] ∧
    (∀ p, 1 ≤ (lineColOf s p).1 ∧ 1 ≤ (lineColOf s p).2) := by
  constructor
  · unfold jsonSyntaxCheck
    rw [h]
    cases hp : e.position <;> simp [hp]
  · intro p
    unfold lineColOf lineColList
    exact lineCol_fold_ge_one s.toList (List.range p) (1, 1) (by omega) (by omega)

/-- Witness for the amended C9 on the empty input (no offset exposed). -/
theorem syntax_error_line_column_witness :
    (jsonSyntaxCheck "").errors =
      [⟨"SyntaxError", "Unexpected end of JSON input", none, some 1, some 1⟩] ∧
    (1 ≤ (lineColOf "" 0).1 ∧ 1 ≤ (lineColOf "" 0).2) :=
  ⟨(syntax_error_line_column "" unexpEnd rfl).1,
    (syntax_error_line_column "" unexpEnd rfl).2 0⟩

/-- C10 (counterexample): when the Ajv collaborator cannot compile the
supplied schema, `validateJsonSchema` does **not** return a report with a
`SchemaError` finding — the unguarded `ajv.compile` throw propagates out
of the operation. -/
theorem schema_compile_throw_counterexample :
    validateJsonSchema ajvFailing JsonValue.null (JsonValue.obj []) =
      .error "schema is invalid: data/type must be string" := by
  rfl

/-- C10 (amended): a schema-compilation failure propagates out of
`validateAgainstSchema` as the thrown exception; no `ValidationReport` is
produced. -/
theorem schema_compile_error_propagates (ajv : AjvModel) (jsonData schema : JsonValue)
    (msg : String) (h : ajv.compile schema = .error msg) :
    validateJsonSchema ajv jsonData schema = .error msg := by
  unfold validateJsonSchema
  rw [h]

/-- Witness for the amended C10 with the failing Ajv model. -/
theorem schema_compile_error_propagates_witness :
    (ajvFailing.compile (JsonValue.obj []) =
      .error "schema is invalid: data/type must be string") ∧
    validateJsonSchema ajvFailing (JsonValue.bool true) (JsonValue.obj []) =
      .error "schema is invalid: data/type must be string" :=
  ⟨rfl, schema_compile_error_propagates ajvFailing (JsonValue.bool true)
    (JsonValue.obj []) "schema is invalid: data/type must be string" rfl⟩

/-! ## Depth and size experiments (C6, C7) -/

/-- A chain of `n` nested singleton arrays around `v` (`v` at depth `n`). -/
def nestArr : Nat → JsonValue → JsonValue
  | 0, v => v
  | n + 1, v => .arr [nestArr n v]

lemma nestArr_succ (n : Nat) (v : JsonValue) :
    nestArr (n + 1) v = .arr [nestArr n v] := rfl

/-- Any call of `checkDepth` past the threshold pushes the finding and
returns without looking at the value. -/
lemma checkDepth_over (v : JsonValue) (d : Nat) (h : d > 100) :
    checkDepth v d = ([excessiveNestingErr], d) := by
  unfold checkDepth
  rw [if_pos h]

/-- A `null` below the threshold contributes nothing. -/
lemma checkDepth_null (d : Nat) (h : ¬ d > 100) :
    checkDepth JsonValue.null d = ([], d) := by
  unfold checkDepth
  rw [if_neg h]

/-- An array below the threshold descends into its children. -/
lemma checkDepth_arr (l : List JsonValue) (d : Nat) (h : ¬ d > 100) :
    checkDepth (JsonValue.arr l) d = checkDepthArr l d d := by
  unfold checkDepth
  rw [if_neg h]

/-- Findings of a singleton child fold. -/
lemma checkDepthArr_singleton_fst (x : JsonValue) (d m : Nat) :
    (checkDepthArr [x] d m).1 = (checkDepth x (d + 1)).1 := by
  simp [checkDepthArr]

/-- A single over-deep chain yields exactly one `ExcessiveNesting` finding:
the threshold check fires once at depth 101 and descent stops there. -/
lemma checkDepth_chain_fst (n : Nat) : ∀ d : Nat, d ≤ 100 → 101 ≤ d + n →
    (checkDepth (nestArr n JsonValue.null) d).1 = [excessiveNestingErr] := by
  induction n with
  | zero => intro d h1 h2; omega
  | succ m ih =>
    intro d h1 h2
    rw [nestArr_succ, checkDepth_arr _ d (by omega), checkDepthArr_singleton_fst]
    by_cases hm : d = 100
    · subst hm
      rw [checkDepth_over _ 101 (by omega)]
    · exact ih (d + 1) (by omega) (by omega)

/-- Two siblings at depth 101 yield one finding each. -/
lemma checkDepth_twoBranch_fst (n : Nat) : ∀ d : Nat, d + n = 100 →
    (checkDepth (nestArr n (JsonValue.arr [JsonValue.null, JsonValue.null])) d).1 =
      [excessiveNestingErr, excessiveNestingErr] := by
  induction n with
  | zero =>
    intro d h
    have hd : d = 100 := by omega
    subst hd
    have h1 : checkDepth JsonValue.null (100 + 1) = ([excessiveNestingErr], 100 + 1) :=
      checkDepth_over _ _ (by omega)
    have h2 : checkDepth (JsonValue.arr [JsonValue.null, JsonValue.null]) 100 =
        checkDepthArr [JsonValue.null, JsonValue.null] 100 100 :=
      checkDepth_arr _ _ (by omega)
    rw [show nestArr 0 (JsonValue.arr [JsonValue.null, JsonValue.null]) =
      JsonValue.arr [JsonValue.null, JsonValue.null] from rfl]
    rw [h2]
    simp [checkDepthArr, h1]
  | succ m ih =>
    intro d h
    rw [nestArr_succ, checkDepth_arr _ d (by omega), checkDepthArr_singleton_fst]
    exact ih (d + 1) (by omega)

/-- Nulls contribute no invalid-number finding. -/
lemma checkNum_null (p : String) : checkForInvalidNumbers JsonValue.null p = [] := by
  simp [checkForInvalidNumbers]

/-- Wrapping a number-clean value in a chain keeps it number-clean. -/
lemma checkNum_nest (v : JsonValue) (hv : ∀ p, checkForInvalidNumbers v p = []) :
    ∀ (n : Nat) (p : String), checkForInvalidNumbers (nestArr n v) p = [] := by
  intro n
  induction n with
  | zero => exact hv
  | succ m ih =>
    intro p
    rw [nestArr_succ]
    simp [checkForInvalidNumbers, checkNumArr, ih]

/-- The two-null array is number-clean. -/
lemma checkNum_pair (p : String) :
    checkForInvalidNumbers (JsonValue.arr [JsonValue.null, JsonValue.null]) p = [] := by
  simp [checkForInvalidNumbers, checkNumArr]

/-- Nulls contribute no size finding. -/
lemma checkSize_null (p : String) : checkSize JsonValue.null p = [] := by
  simp [checkSize]

/-- Wrapping a size-clean value in a chain of singleton arrays keeps it
size-clean (singleton arrays are far below the limit). -/
lemma checkSize_nest (v : JsonValue) (hv : ∀ p, checkSize v p = []) :
    ∀ (n : Nat) (p : String), checkSize (nestArr n v) p = [] := by
  intro n
  induction n with
  | zero => exact hv
  | succ m ih =>
    intro p
    rw [nestArr_succ]
    simp [checkSize, checkSizeArr, ih]

/-- The two-null array is size-clean. -/
lemma checkSize_pair (p : String) :
    checkSize (JsonValue.arr [JsonValue.null, JsonValue.null]) p = [] := by
  simp [checkSize, checkSizeArr, checkSize_null]

/-- Evaluation of the anomaly walker on a deep chain of singleton arrays:
one `ExcessiveNesting` finding, however deep the chain. -/
lemma anomalies_chain_eval (n : Nat) (h : 101 ≤ n) :
    checkJsonAnomalies (nestArr n JsonValue.null) =
      ⟨false, [excessiveNestingErr]⟩ := by
  unfold checkJsonAnomalies
  rw [checkNum_nest JsonValue.null checkNum_null n ""]
  rw [checkDepth_chain_fst n 0 (by omega) (by omega)]
  rw [checkSize_nest JsonValue.null checkSize_null n ""]
  dsimp only
  simp only [List.nil_append, List.append_nil]
  rw [foldl_addErr_cons]
  rfl

/-- Evaluation of the anomaly walker on a depth-100 chain ending in two
null siblings (both at depth 101): two `ExcessiveNesting` findings. -/
lemma anomalies_twoBranch_eval :
    checkJsonAnomalies (nestArr 100 (JsonValue.arr [JsonValue.null, JsonValue.null])) =
      ⟨false, [excessiveNestingErr, excessiveNestingErr]⟩ := by
  unfold checkJsonAnomalies
  rw [checkNum_nest _ checkNum_pair 100 ""]
  rw [checkDepth_twoBranch_fst 100 0 (by omega)]
  rw [checkSize_nest _ checkSize_pair 100 ""]
  dsimp only
  simp only [List.nil_append, List.append_nil]
  rw [foldl_addErr_cons]
  rfl

/-- C6 (counterexample): a value tree with *two* branches whose nodes sit
at depth 101 (a chain of 100 singleton arrays ending in an array of two
nulls) receives **two** `ExcessiveNesting` findings, not exactly one for
the whole call as claimed. -/
theorem excessive_nesting_two_branches_counterexample :
    (checkJsonAnomalies
      (nestArr 100 (JsonValue.arr [JsonValue.null, JsonValue.null]))).errors.countP
        (fun e => e.type == "ExcessiveNesting") = 2 := by
  rw [anomalies_twoBranch_eval]
  rfl

/-- C6 (amended): `checkAnomalies` emits one `ExcessiveNesting` finding per
node it reaches at depth 101 and stops descending past it: a single chain
of depth 101 — or 150, showing descent stops — yields exactly one finding,
while a tree with two siblings at depth 101 yields exactly two. -/
theorem excessive_nesting_per_branch :
    checkJsonAnomalies (nestArr 101 JsonValue.null) = ⟨false, [excessiveNestingErr]⟩ ∧
    checkJsonAnomalies (nestArr 150 JsonValue.null) = ⟨false, [excessiveNestingErr]⟩ ∧
    checkJsonAnomalies (nestArr 100 (JsonValue.arr [JsonValue.null, JsonValue.null])) =
      ⟨false, [excessiveNestingErr, excessiveNestingErr]⟩ :=
  ⟨anomalies_chain_eval 101 (by omega), anomalies_chain_eval 150 (by omega),
    anomalies_twoBranch_eval⟩

/-- A replicated-null element list is number-clean. -/
lemma checkNumArr_replicate (n : Nat) : ∀ (p : String) (i : Nat),
    checkNumArr (List.replicate n JsonValue.null) p i = [] := by
  induction n with
  | zero => intro p i; simp [checkNumArr]
  | succ m ih =>
    intro p i
    rw [List.replicate_succ]
    simp [checkNumArr, checkForInvalidNumbers, ih]

/-- A replicated-null element list below the depth threshold contributes no
depth finding, whatever the running maximum. -/
lemma checkDepthArr_replicate_fst (n : Nat) : ∀ (d m : Nat), d + 1 ≤ 100 →
    (checkDepthArr (List.replicate n JsonValue.null) d m).1 = [] := by
  induction n with
  | zero => intro d m _; simp [checkDepthArr]
  | succ k ih =>
    intro d m h
    rw [List.replicate_succ]
    simp [checkDepthArr, checkDepth_null _ (show ¬ d + 1 > 100 by omega), ih _ _ h]

/-- A replicated-null element list is size-clean. -/
lemma checkSizeArr_replicate (n : Nat) : ∀ (p : String) (i : Nat),
    checkSizeArr (List.replicate n JsonValue.null) p i = [] := by
  induction n with
  | zero => intro p i; simp [checkSizeArr]
  | succ m ih =>
    intro p i
    rw [List.replicate_succ]
    simp [checkSizeArr, checkSize_null, ih]

/-- An array of 100001 nulls: over the collection limit. -/
def bigArr : JsonValue := JsonValue.arr (List.replicate 100001 JsonValue.null)

/-- An array of 100001 elements whose first element is itself an oversized
array: the nested oversized collection the claim says is still reported. -/
def vBig : JsonValue := JsonValue.arr (bigArr :: List.replicate 100000 JsonValue.null)

/-- Length facts for the two big containers. -/
lemma vBig_len : (bigArr :: List.replicate 100000 JsonValue.null).length = 100001 := by
  rw [List.length_cons, List.length_replicate]

/-- Unfolding of the number walker on an array node. -/
lemma checkNum_arr (l : List JsonValue) (p : String) :
    checkForInvalidNumbers (JsonValue.arr l) p = checkNumArr l p 0 := by
  simp [checkForInvalidNumbers]

/-- Unfolding of the number walker's element fold. -/
lemma checkNumArr_cons (x : JsonValue) (xs : List JsonValue) (p : String) (i : Nat) :
    checkNumArr (x :: xs) p i =
      checkForInvalidNumbers x (p ++ "[" ++ toString i ++ "]") ++ checkNumArr xs p (i + 1) := by
  simp [checkNumArr]

/-- Findings of the depth walker's element fold, one step. -/
lemma checkDepthArr_cons_fst (x : JsonValue) (xs : List JsonValue) (d m : Nat) :
    (checkDepthArr (x :: xs) d m).1 =
      (checkDepth x (d + 1)).1 ++
        (checkDepthArr xs d (max m (checkDepth x (d + 1)).2)).1 := by
  simp [checkDepthArr]

/-- C7 (counterexample): an oversized array is **not** descended into — the
descent lives in the `else` branch of `checkSize` — so the oversized array
nested at index 0 of `vBig` is *not* reported: the whole anomaly report for
`vBig` holds exactly one `LargeArray` finding (for the outer array), not
one for the inner array as well. -/
theorem oversized_array_no_descent_counterexample :
    checkJsonAnomalies vBig = ⟨false, [largeArrayErr "" 100001]⟩ := by
  unfold checkJsonAnomalies
  have hnum : checkForInvalidNumbers vBig "" = [] := by
    unfold vBig bigArr
    rw [checkNum_arr, checkNumArr_cons, checkNum_arr,
      checkNumArr_replicate, checkNumArr_replicate]
    rfl
  have hdep : (checkDepth vBig 0).1 = [] := by
    unfold vBig bigArr
    rw [checkDepth_arr _ 0 (by omega), checkDepthArr_cons_fst,
      checkDepth_arr _ (0 + 1) (by omega),
      checkDepthArr_replicate_fst _ (0 + 1) _ (by omega),
      checkDepthArr_replicate_fst _ 0 _ (by omega)]
    rfl
  have hsize : checkSize vBig "" = [largeArrayErr "" 100001] := by
    unfold vBig
    unfold checkSize
    rw [if_pos (by rw [vBig_len]; omega)]
    rw [vBig_len]
  rw [hnum, hdep, hsize]
  dsimp only
  simp only [List.nil_append, List.append_nil]
  rw [foldl_addErr_cons]
  rfl

/-- C7 (amended): an Array node longer than 100000 yields a `LargeArray`
finding carrying its path and observed length but is *not* descended into
(nested oversized collections inside it go unreported), while an Object
node with more than 100000 keys yields a `LargeObject` finding and *is*
still descended into afterward. -/
theorem oversized_collection_reporting :
    (∀ (items : List JsonValue) (p : String), items.length > 100000 →
      checkSize (JsonValue.arr items) p = [largeArrayErr p items.length]) ∧
    (∀ (entries : List (String × JsonValue)) (p : String), entries.length > 100000 →
      checkSize (JsonValue.obj entries) p =
        largeObjectErr p entries.length :: checkSizeObj entries p) := by
  constructor
  · intro items p h
    unfold checkSize
    rw [if_pos h]
  · intro entries p h
    unfold checkSize
    rw [if_pos h]
    rfl

/-- Witness for the amended C7 at a 100001-element array and a
100001-member object (distinct generated keys). -/
theorem oversized_collection_reporting_witness :
    ((List.replicate 100001 JsonValue.null).length > 100000 ∧
      checkSize (JsonValue.arr (List.replicate 100001 JsonValue.null)) "" =
        [largeArrayErr "" (List.replicate 100001 JsonValue.null).length]) ∧
    (((List.range 100001).map fun i => (toString i, JsonValue.null)).length > 100000 ∧
      checkSize (JsonValue.obj ((List.range 100001).map fun i => (toString i, JsonValue.null))) "" =
        largeObjectErr "" ((List.range 100001).map fun i => (toString i, JsonValue.null)).length ::
          checkSizeObj ((List.range 100001).map fun i => (toString i, JsonValue.null)) "") := by
  have h1 : (List.replicate 100001 JsonValue.null).length > 100000 := by
    rw [List.length_replicate]; omega
  have h2 : ((List.range 100001).map fun i => (toString i, JsonValue.null)).length > 100000 := by
    rw [List.length_map, List.length_range]; omega
  exact ⟨⟨h1, oversized_collection_reporting.1 _ "" h1⟩,
    ⟨h2, oversized_collection_reporting.2 _ "" h2⟩⟩
